import Mathlib

/-!
Verification development for the IR-construction support header of the
firefly compiler (lumen/EIR module builder support).

The development shallowly embeds, in order:
 * the definition resolver `getDefinition` over a control-flow graph of
   blocks, block arguments and operation results, together with its typed
   variant (a `dyn_cast_or_null` wrapper);
 * the structural encodings the builder exchanges with the front-end:
   `EirType` (a tagged union), `Closure` (ordered captured environment),
   `BinarySpecifier` (tagged binary-segment descriptor), `MapUpdate`
   (ordered insert/update action batches) and the match compiler's
   branch dispatch;
 * the `MatchPattern` class hierarchy with its kind tags and `classof`
   predicates.

The C++ resolver recurses without any termination guard, so the embedding
threads an explicit fuel counter: `none` means the recursion did not finish
within the given fuel (for every fuel, on some inputs), `some r` means the
function returned, with `r = none` standing for a `nullptr` result
(Indeterminate) and `r = some op` for a resolved operation.
-/

namespace Firefly

/-- Values of the IR graph: a block argument (identified by owner block and
argument position) or the result of an operation (identified by the
operation's id). Mirrors `Value`, `BlockArgument` and `OpResult`. -/
inductive Value where
  | blockArg (blockId : Nat) (argNo : Nat)
  | opResult (opId : Nat)
deriving DecidableEq, Repr

/-- A branch-like operation found by walking a block: its id and, for each
successor edge of the owning block (by position), optionally the list of
operands forwarded to that successor's block arguments. Mirrors
`BranchOpInterface::getSuccessorOperands`, whose result is optional. -/
structure BranchOp where
  opId : Nat
  succOperands : List (Option (List Value))
deriving DecidableEq, Repr

/-- A basic block: entry flag, predecessor list, successor list, and the
branch operations a `walk` of the block visits, in walk order. -/
structure BlockData where
  isEntry : Bool
  preds : List Nat
  succs : List Nat
  branchOps : List BranchOp
deriving DecidableEq, Repr

/-- The IR graph under construction: its blocks (indexed by id) and the
kind of each operation (indexed by operation id), used by the typed
resolver variant. -/
structure Graph where
  blocks : List BlockData
  opKinds : List Nat
deriving DecidableEq, Repr

/-- Block lookup; ids outside the graph behave as detached entry blocks. -/
def Graph.block (g : Graph) (b : Nat) : BlockData :=
  g.blocks.getD b ⟨true, [], [], []⟩

/-- Kind of an operation, for the typed resolver variant. -/
def Graph.opKind (g : Graph) (op : Nat) : Nat :=
  g.opKinds.getD op 0

/-- State of the `pred->walk(...)` traversal in `getDefinition`: still
running with the current `found` pointer, stopped by
`WalkResult::interrupt()` with the `found` pointer it kept, or out of fuel
in a recursive resolution (`dead`, modelling divergence). -/
inductive WalkSt where
  | run (found : Option Nat)
  | stopped (found : Option Nat)
  | dead
deriving DecidableEq, Repr

/-- The successor-edge loop of one walk callback (lines 31-48 of the
source): iterate the predecessor block's successors with their positions;
skip edges not targeting `blockId` and edges without successor operands;
otherwise resolve the operand at `index` with `rec`; on a conflict with a
previously found non-null operation, interrupt the walk keeping the old
`found`; otherwise record the resolution and continue. -/
def edgesLoop (rec : Value → Option (Option Nat)) (blockId index : Nat)
    (op : BranchOp) : List (Nat × Nat) → Option Nat → WalkSt
  | [], found => .run found
  | (i, succ) :: rest, found =>
    if succ ≠ blockId then
      edgesLoop rec blockId index op rest found
    else
      match op.succOperands.getD i none with
      | none => edgesLoop rec blockId index op rest found
      | some operands =>
        match operands.get? index with
        | none => edgesLoop rec blockId index op rest found
        | some candidate =>
          match rec candidate with
          | none => .dead
          | some defr =>
            if found ≠ none ∧ defr ≠ found then .stopped found
            else edgesLoop rec blockId index op rest defr

/-- The walk over a predecessor's branch operations: the `found` pointer
persists across callbacks; an interrupted walk stops visiting further
operations. -/
def walkLoop (rec : Value → Option (Option Nat)) (blockId index : Nat)
    (edges : List (Nat × Nat)) : List BranchOp → Option Nat → WalkSt
  | [], found => .run found
  | op :: rest, found =>
    match edgesLoop rec blockId index op edges found with
    | .dead => .dead
    | .stopped f => .stopped f
    | .run f => walkLoop rec blockId index edges rest f

/-- Outcome of the predecessor loop (lines 26-54 of the source): `dead` is
divergence, `earlyNull` is the conflict return of line 52, `done result`
is falling out of the loop with the accumulated `result` pointer. -/
inductive PredsOut where
  | dead
  | earlyNull
  | done (result : Option Nat)
deriving DecidableEq, Repr

/-- The loop over the block's predecessors: walk each predecessor, compare
the walk's `found` with the running `result` (a conflict with a non-null
`result` returns null), and carry `found` into `result`. -/
def predsLoop (g : Graph) (rec : Value → Option (Option Nat))
    (blockId index : Nat) : List Nat → Option Nat → PredsOut
  | [], result => .done result
  | p :: rest, result =>
    let pb := g.block p
    match walkLoop rec blockId index (pb.succs.enum) pb.branchOps none with
    | .dead => .dead
    | .run found | .stopped found =>
      if result ≠ none ∧ found ≠ result then .earlyNull
      else predsLoop g rec blockId index rest found

/-- Fuel-indexed embedding of `getDefinition` (source lines 10-59). For an
operation result it returns the defining operation. For a block argument of
an entry block or a block without predecessors it returns null. Otherwise
it runs the predecessor loop and — exactly as the source's line 56 — returns
`nullptr` whatever `result` the loop accumulated; the loop is still run,
since its recursive resolutions determine whether the call terminates. -/
def getDefinitionF (g : Graph) : Nat → Value → Option (Option Nat)
  | 0, _ => none
  | n + 1, v =>
    match v with
    | .opResult op => some (some op)
    | .blockArg b index =>
      let blk := g.block b
      if blk.isEntry then some none
      else if blk.preds.isEmpty then some none
      else
        match predsLoop g (getDefinitionF g n) b index blk.preds none with
        | .dead => none
        | .earlyNull => some none
        | .done _ => some none

/-- Embedding of `llvm::dyn_cast_or_null<OpTy>`: null maps to null, an
operation maps to itself exactly when its kind matches. -/
def dynCastOrNull (kindOf : Nat → Nat) (k : Nat) : Option Nat → Option Nat
  | none => none
  | some op => if kindOf op = k then some op else none

/-- Embedding of the typed variant `getDefinition<OpTy>` (source lines
61-64): resolve untyped, then `dyn_cast_or_null` to the requested kind
`k`. Divergence of the untyped resolver is divergence of the typed one. -/
def getDefinitionTyped (g : Graph) (fuel k : Nat) (v : Value) :
    Option (Option Nat) :=
  (getDefinitionF g fuel v).map (dynCastOrNull g.opKind k)

/-- Tags of the match-pattern variants, mirroring the source enum
`MatchPatternType { Any, Cons, Tuple, MapItem, IsType, Value, Binary }`. -/
inductive MatchPatternType where
  | any
  | cons
  | tuple
  | mapItem
  | isType
  | value
  | binary
deriving DecidableEq, Repr

/-- Endianness of a binary segment, mirroring the source enum
`Endianness { Big, Little, Native }`. -/
inductive Endianness where
  | big
  | little
  | native
deriving DecidableEq, Repr

/-- Tags of the binary-segment specifier, mirroring the source enum
`BinarySpecifierType { Integer, Float, Bytes, Bits, Utf8, Utf16, Utf32 }`. -/
inductive BinarySpecifierType where
  | integer
  | float
  | bytes
  | bits
  | utf8
  | utf16
  | utf32
deriving DecidableEq, Repr

/-- Modelled from the spec: the `BinarySpecifier` of the source stores a
tag next to a raw union of payloads (`IntegerSpecifier`, `FloatSpecifier`,
`UnitSpecifier`, `EndiannessSpecifier`), and the builder routines that
construct and read it — which enforce that only the field matching the
active tag is touched — are not among the given sources. Following the
spec's data model, it is embedded as a discriminated sum:
`Integer{signed, endianness, unit}`, `Float{endianness, unit}`, and the
payload-free `Bytes`, `Bits`, `Utf8`, `Utf16`, `Utf32`. -/
inductive BinarySpecifier where
  | integer (isSigned : Bool) (endianness : Endianness) (unit : Int)
  | float (endianness : Endianness) (unit : Int)
  | bytes
  | bits
  | utf8
  | utf16
  | utf32
deriving DecidableEq, Repr

/-- Active tag of a binary-segment specifier. -/
def BinarySpecifier.tag : BinarySpecifier → BinarySpecifierType
  | .integer _ _ _ => .integer
  | .float _ _ => .float
  | .bytes => .bytes
  | .bits => .bits
  | .utf8 => .utf8
  | .utf16 => .utf16
  | .utf32 => .utf32

/-- Structural build-time errors of the builder, from the spec's error
taxonomy. -/
inductive BuildError where
  | malformedBinarySpecifier
deriving DecidableEq, Repr

/-- Modelled from the spec: reading the `Integer{signed, endianness, unit}`
payload field; on any other active tag this is a structural error
`MalformedBinarySpecifier`, never silently tolerated. -/
def readIntegerPayload : BinarySpecifier →
    Except BuildError (Bool × Endianness × Int)
  | .integer s e u => .ok (s, e, u)
  | _ => .error .malformedBinarySpecifier

/-- Modelled from the spec: reading the `Float{endianness, unit}` payload
field; on any other active tag this is a structural error
`MalformedBinarySpecifier`. -/
def readFloatPayload : BinarySpecifier →
    Except BuildError (Endianness × Int)
  | .float e u => .ok (e, u)
  | _ => .error .malformedBinarySpecifier

/-- Numeric payload (the unit multiplier) a specifier carries, if any; the
Bytes, Bits, Utf8, Utf16 and Utf32 variants carry none. -/
def BinarySpecifier.numericPayload : BinarySpecifier → Option Int
  | .integer _ _ u => some u
  | .float _ u => some u
  | _ => none

/-- Modelled from the spec: the term values the match compiler's emitted
dispatch inspects at runtime; the lowering that tests patterns against a
selector is not among the given sources. Maps are kept as association
lists over key handles. -/
inductive Term where
  | intVal (n : Int)
  | atom (a : Nat)
  | nil
  | cons (hd tl : Term)
  | tuple (elems : List Term)
  | mapV (entries : List (Nat × Nat))
  | binary (bits : List Bool)

mutual

/-- Structural equality of terms, used by the `Value` pattern's exact
literal comparison. -/
def Term.beq : Term → Term → Bool
  | .intVal a, .intVal b => a = b
  | .atom a, .atom b => a = b
  | .nil, .nil => true
  | .cons h t, .cons h' t' => Term.beq h h' && Term.beq t t'
  | .tuple es, .tuple es' => Term.beqList es es'
  | .mapV es, .mapV es' => es = es'
  | .binary bs, .binary bs' => bs = bs'
  | _, _ => false

/-- Structural equality of term lists, elementwise. -/
def Term.beqList : List Term → List Term → Bool
  | [], [] => true
  | a :: as, b :: bs => Term.beq a b && Term.beqList as bs
  | _, _ => false

end

/-- Modelled from the spec: the runtime type tag of a term, compared by the
`IsType` pattern; the concrete tag numbering comes from an include file
that is not among the given sources, so tags are numbered by shape. -/
def Term.typeTag : Term → Nat
  | .intVal _ => 0
  | .atom _ => 1
  | .nil => 2
  | .cons _ _ => 3
  | .tuple _ => 4
  | .mapV _ => 5
  | .binary _ => 6

/-- The pattern of one match branch, mirroring the source's
`MLIRMatchPattern` (a `MatchPatternType` tag plus the per-tag payload of
its union: a tuple arity, a map key, an expected type, a literal value, or
a binary specifier with optional size). The literal of a `Value` pattern
is embedded as the term the referenced constant denotes. -/
inductive MPattern where
  | any
  | consP
  | tupleP (arity : Nat)
  | mapItem (key : Nat)
  | isType (ty : Nat)
  | valueP (v : Term)
  | binaryP (spec : BinarySpecifier) (size : Option Nat)

/-- Modelled from the spec: structural matching of one pattern against the
selector — `Any` always matches; `Cons` matches a non-empty list cell;
`Tuple{arity}` matches a tuple of exactly that arity; `MapItem{key}`
matches a map containing the key; `IsType{ty}` matches when the runtime
type tag equals `ty`; `Value{v}` matches on exact equality; `Binary`
matches a binary term. -/
def patternMatches : MPattern → Term → Bool
  | .any, _ => true
  | .consP, t => match t with | .cons _ _ => true | _ => false
  | .tupleP a, t => match t with | .tuple es => es.length = a | _ => false
  | .mapItem k, t =>
    match t with | .mapV es => es.any (fun e => e.1 = k) | _ => false
  | .isType ty, t => t.typeTag = ty
  | .valueP v, t => Term.beq v t
  | .binaryP _ _, t => match t with | .binary _ => true | _ => false

/-- One match arm, mirroring the source's `MLIRMatchBranch`: location,
destination block, destination block-argument list, pattern. -/
structure MatchBranch where
  loc : Nat
  dest : Nat
  destArgv : List Nat
  pattern : MPattern

/-- Modelled from the spec: the dispatch the match compiler lowers a
`Match` to — each branch's pattern is tested against the selector in list
order, and the first structurally matching branch's destination block and
argument list receive control; `none` when no branch matches (totality is
a caller obligation). -/
def matchDispatch : List MatchBranch → Term → Option (Nat × List Nat)
  | [], _ => none
  | b :: rest, sel =>
    if patternMatches b.pattern sel then some (b.dest, b.destArgv)
    else matchDispatch rest sel

/-- Kinds of map actions, mirroring the source enum
`MapActionType { Unknown = 0, Insert, Update }`. -/
inductive MapActionType where
  | unknown
  | insert
  | update
deriving DecidableEq, Repr

/-- One map action, mirroring the source's `MapAction {action, key, value}`
with key and value handles embedded as the runtime keys and values they
denote. -/
structure MapAction where
  action : MapActionType
  key : Nat
  value : Nat
deriving DecidableEq, Repr

/-- Runtime maps, as association lists without duplicate semantics: lookup
takes the first binding, insertion overwrites the first binding in place or
appends. -/
abbrev MapV := List (Nat × Nat)

/-- Key-membership test of a runtime map. -/
def mapContains (m : MapV) (k : Nat) : Bool :=
  m.any (fun e => e.1 = k)

/-- Create-or-overwrite insertion into a runtime map. -/
def mapPut (m : MapV) (k v : Nat) : MapV :=
  match m with
  | [] => [(k, v)]
  | (k', v') :: rest =>
    if k' = k then (k, v) :: rest else (k', v') :: mapPut rest k v

/-- Modelled from the spec: the effect of one map action — `Insert` always
succeeds (create-or-overwrite); `Update` requires the key already present
and fails otherwise; `none` is a failed precondition. An `Unknown` action
is a structural build-time error rejected before emission, so it never
reaches the emitted control flow; it is mapped to a failure here and the
theorems about emitted control flow quantify over `Insert`/`Update`
batches. -/
def applyMapAction (m : MapV) (a : MapAction) : Option MapV :=
  match a.action with
  | .insert => some (mapPut m a.key a.value)
  | .update =>
    if mapContains m a.key then some (mapPut m a.key a.value) else none
  | .unknown => none

/-- Sequential application of a batch of map actions, failing at the first
action whose precondition fails. -/
def applyMapActions (m : MapV) : List MapAction → Option MapV
  | [] => some m
  | a :: rest => (applyMapAction m a).bind (fun m' => applyMapActions m' rest)

/-- Which block the emitted control flow of a `MapUpdate` reaches: the
ok-block with the resulting map, or the err-block. -/
inductive MapOutcome where
  | ok (result : MapV)
  | err
deriving DecidableEq, Repr

/-- Modelled from the spec: the control flow emitted for a `MapUpdate`
applies the actions strictly in sequence order and short-circuits — the
first action whose precondition fails transfers control to the err-block
and later actions are not evaluated; if all succeed, control reaches the
ok-block once with the resulting map. A zero-action batch transfers to ok
with the map unchanged. -/
def runMapUpdate (m : MapV) : List MapAction → MapOutcome
  | [] => .ok m
  | a :: rest =>
    match applyMapAction m a with
    | none => .err
    | some m' => runMapUpdate m' rest

/-- A closure descriptor, mirroring the source's `Closure`: location,
owning module, name, arity, index, old uniqueness marker, 16-byte unique
token, and the ordered captured environment (`env` pointer plus `envLen`,
embedded as a list). -/
structure Closure where
  loc : Nat
  module : Nat
  name : String
  arity : Nat
  index : Nat
  oldUnique : Nat
  unique : List Nat
  env : List Nat
deriving DecidableEq, Repr

/-- Construction of a closure descriptor from its parts, the captured
environment passed in capture order. -/
def mkClosure (loc module : Nat) (name : String)
    (arity index oldUnique : Nat) (unique : List Nat)
    (env : List Nat) : Closure :=
  ⟨loc, module, name, arity, index, oldUnique, unique, env⟩

/-- Modelled from the spec: reading back the whole captured environment of
a closure, in order; the consuming lowering routines are not among the
given sources. -/
def Closure.readEnv (c : Closure) : List Nat :=
  c.env

/-- Modelled from the spec: positional access to one captured value of a
closure. -/
def Closure.readEnvAt (c : Closure) (i : Nat) : Option Nat :=
  c.env.get? i

/-- The `Any` shape of the source's `EirType` union: a bare type tag. The
concrete tag enumerators come from an include file that is not among the
given sources, so tags are embedded as numbers. -/
structure EirTypeAny where
  tag : Nat
deriving DecidableEq, Repr

/-- The `Tuple` shape of the source's `EirType` union: a type tag followed
by an arity. -/
structure EirTypeTuple where
  tag : Nat
  arity : Nat
deriving DecidableEq, Repr

/-- Field-slot layout of `EirTypeAny`, in declaration order: the tag is
the sole, leading field. -/
def EirTypeAny.layout (t : EirTypeAny) : List Nat :=
  [t.tag]

/-- Field-slot layout of `EirTypeTuple`, in declaration order: the tag
leads, the arity follows. -/
def EirTypeTuple.layout (t : EirTypeTuple) : List Nat :=
  [t.tag, t.arity]

/-- Writing the `any` member of the `EirType` union stores the `Any`
layout. -/
def writeAny (t : EirTypeAny) : List Nat :=
  t.layout

/-- Writing the `tuple` member of the `EirType` union stores the `Tuple`
layout. -/
def writeTuple (t : EirTypeTuple) : List Nat :=
  t.layout

/-- Reading the tag through the `any` member: the tag field of
`EirTypeAny` sits at slot 0. -/
def readTagViaAny (storage : List Nat) : Option Nat :=
  storage.get? 0

/-- Reading the tag through the `tuple` member: the tag field of
`EirTypeTuple` also sits at slot 0. -/
def readTagViaTuple (storage : List Nat) : Option Nat :=
  storage.get? 0

/-- Reading the arity through the `tuple` member: the arity field of
`EirTypeTuple` sits at slot 1, present only when the `Tuple` shape was
stored. -/
def readArityViaTuple (storage : List Nat) : Option Nat :=
  storage.get? 1

/-- The `MatchPattern` class hierarchy flattened into a closed sum: one
constructor per subclass, each carrying that subclass's fields
(`AnyPattern`, `ConsPattern`, `TuplePattern{arity}`, `MapPattern{key}`,
`IsTypePattern{expectedType}`, `ValuePattern{value}`,
`BinaryPattern{spec, size}`), with key, expected type and value kept as
handles. -/
inductive MatchPattern where
  | anyPattern
  | consPattern
  | tuplePattern (arity : Nat)
  | mapPattern (key : Nat)
  | isTypePattern (expectedType : Nat)
  | valuePattern (value : Nat)
  | binaryPattern (spec : BinarySpecifier) (size : Option Nat)
deriving DecidableEq, Repr

/-- The kind tag of a pattern object: each subclass's constructor passes a
fixed `MatchPatternType` to the base-class constructor, and `getKind`
returns it. -/
def MatchPattern.getKind : MatchPattern → MatchPatternType
  | .anyPattern => .any
  | .consPattern => .cons
  | .tuplePattern _ => .tuple
  | .mapPattern _ => .mapItem
  | .isTypePattern _ => .isType
  | .valuePattern _ => .value
  | .binaryPattern _ _ => .binary

/-- The `classof` predicate of `AnyPattern`. -/
def classofAny (p : MatchPattern) : Bool :=
  p.getKind = MatchPatternType.any

/-- The `classof` predicate of `ConsPattern`. -/
def classofCons (p : MatchPattern) : Bool :=
  p.getKind = MatchPatternType.cons

/-- The `classof` predicate of `TuplePattern`. -/
def classofTuple (p : MatchPattern) : Bool :=
  p.getKind = MatchPatternType.tuple

/-- The `classof` predicate of `MapPattern`. -/
def classofMap (p : MatchPattern) : Bool :=
  p.getKind = MatchPatternType.mapItem

/-- The `classof` predicate of `IsTypePattern`. -/
def classofIsType (p : MatchPattern) : Bool :=
  p.getKind = MatchPatternType.isType

/-- The `classof` predicate of `ValuePattern`. -/
def classofValue (p : MatchPattern) : Bool :=
  p.getKind = MatchPatternType.value

/-- The `classof` predicate of `BinaryPattern`. -/
def classofBinary (p : MatchPattern) : Bool :=
  p.getKind = MatchPatternType.binary

/-- The seven `classof` predicates of the hierarchy, in declaration
order. -/
def classofList : List (MatchPattern → Bool) :=
  [classofAny, classofCons, classofTuple, classofMap, classofIsType,
   classofValue, classofBinary]

/-- Concrete graph: entry block 0 branches to block 1 forwarding the result
of operation 7 as block 1's argument 0; block 1 has the single predecessor
0. The operand on the only transfer edge resolves to operation 7. -/
def G1 : Graph :=
  ⟨[⟨true, [], [1], [⟨10, [some [.opResult 7]]⟩]⟩,
    ⟨false, [0], [], []⟩], []⟩

/-- Concrete graph: entry block 0 branches to block 1 forwarding the result
of operation 3; block 1 loops to itself forwarding its own argument 0
unchanged, so block 1 has predecessors 0 and 1. -/
def G2 : Graph :=
  ⟨[⟨true, [], [1], [⟨10, [some [.opResult 3]]⟩]⟩,
    ⟨false, [0, 1], [1], [⟨11, [some [.blockArg 1 0]]⟩]⟩], []⟩

/-- Helper: on graph `G2`, as soon as the recursive resolver diverges on
block 1's argument 0, the predecessor loop over `[0, 1]` diverges as well:
the self-loop predecessor re-resolves the unchanged argument. -/
theorem predsLoopG2_dead (rec : Value → Option (Option Nat))
    (hX : rec (.blockArg 1 0) = none) :
    predsLoop G2 rec 1 0 [0, 1] none = .dead := by
  cases hA : rec (.opResult 3) with
  | none =>
    simp [predsLoop, walkLoop, edgesLoop, Graph.block, G2, List.enum, hA]
  | some a =>
    simp [predsLoop, walkLoop, edgesLoop, Graph.block, G2, List.enum, hA, hX]

/-- C2. The claim states that `getDefinition` maintains a visited set and
terminates on every control-flow graph; the code has no visited set, and on
graph `G2` — a block argument fed by a self-loop edge carrying the unchanged
value plus an entry predecessor forwarding operation 3's result — the
recursion re-resolves the same block argument forever: in the fuel
embedding the call fails to finish for every fuel bound, instead of
terminating with operation 3 as the claim requires. -/
theorem getDefinition_selfLoop_diverges (n : Nat) :
    getDefinitionF G2 n (.blockArg 1 0) = none := by
  induction n with
  | zero => rfl
  | succ m ih =>
    have h := predsLoopG2_dead (getDefinitionF G2 m) ih
    simp only [getDefinitionF]
    simp only [Graph.block, G2, List.getD] at h ⊢
    simp [h]

/-- C1. The claim states that when every contributing predecessor edge
resolves a block argument to one agreed operation — in particular with a
single predecessor — `getDefinition` returns that operation. On graph `G1`,
block 1's argument 0 has the single predecessor 0 whose transfer edge
forwards operation 7's result, and that operand resolves to operation 7;
yet the call returns null, because line 56 of the source returns `nullptr`
unconditionally instead of the accumulated `result`. -/
theorem getDefinition_singlePred_discardsResult :
    getDefinitionF G1 3 (.blockArg 1 0) = some none ∧
    getDefinitionF G1 3 (.opResult 7) = some (some 7) :=
  ⟨rfl, rfl⟩

/-- C6. A direct computation result resolves to its producing operation; a
block argument of the entry block, or of any block without predecessors,
resolves to null; and a non-null operation is returned only for a value
that is itself that operation's result — so only when a reaching definition
exists. -/
theorem getDefinition_base (g : Graph) (n : Nat) :
    (∀ k, getDefinitionF g (n + 1) (.opResult k) = some (some k)) ∧
    (∀ b i, (g.block b).isEntry = true →
      getDefinitionF g (n + 1) (.blockArg b i) = some none) ∧
    (∀ b i, (g.block b).preds = [] →
      getDefinitionF g (n + 1) (.blockArg b i) = some none) ∧
    (∀ m v r, getDefinitionF g m v = some (some r) → v = .opResult r) := by
  refine ⟨fun k => rfl, fun b i h => by simp [getDefinitionF, h],
    fun b i h => ?_, fun m v r h => ?_⟩
  · by_cases he : (g.block b).isEntry = true <;>
      simp [getDefinitionF, he, h]
  · cases m with
    | zero => exact absurd h (by simp [getDefinitionF])
    | succ m' =>
      cases v with
      | opResult k =>
        simp only [getDefinitionF, Option.some.injEq] at h
        exact congrArg Value.opResult h
      | blockArg b i =>
        exfalso
        simp only [getDefinitionF] at h
        split at h
        · exact Option.noConfusion (Option.some.inj h)
        · split at h
          · exact Option.noConfusion (Option.some.inj h)
          · split at h
            · exact Option.noConfusion h
            · exact Option.noConfusion (Option.some.inj h)
            · exact Option.noConfusion (Option.some.inj h)

/-- Witness for C6 at a concrete input: block 0 of `G2` is the entry
block, and its argument 0 resolves to null. -/
theorem getDefinition_base_witness :
    (G2.block 0).isEntry = true ∧
    getDefinitionF G2 1 (Value.blockArg 0 0) = some none :=
  ⟨rfl, (getDefinition_base G2 0).2.1 0 0 rfl⟩

/-- C7. The typed variant returns the operation resolved by the untyped
resolver exactly when that operation is non-null and of the requested kind,
and null otherwise — including when the untyped resolver returns null; a
diverging untyped resolution diverges through the typed variant as well. -/
theorem getDefinitionTyped_characterizes (g : Graph) (fuel k : Nat)
    (v : Value) :
    (∀ op, getDefinitionTyped g fuel k v = some (some op) ↔
      getDefinitionF g fuel v = some (some op) ∧ g.opKind op = k) ∧
    (getDefinitionF g fuel v = some none →
      getDefinitionTyped g fuel k v = some none) ∧
    (∀ op, getDefinitionF g fuel v = some (some op) → g.opKind op ≠ k →
      getDefinitionTyped g fuel k v = some none) ∧
    (getDefinitionF g fuel v = none →
      getDefinitionTyped g fuel k v = none) := by
  unfold getDefinitionTyped
  cases h : getDefinitionF g fuel v with
  | none => simp [dynCastOrNull]
  | some r =>
    cases r with
    | none => simp [dynCastOrNull]
    | some op =>
      refine ⟨fun op' => ?_, by simp, fun op' h1 h2 => ?_, by simp⟩
      · by_cases hk : g.opKind op = k <;>
          simp [dynCastOrNull, hk] <;> rintro rfl <;> simp_all
      · obtain rfl : op = op' := Option.some.inj (Option.some.inj h1)
        simp [dynCastOrNull, h2]

/-- Witness for C7 at a concrete input: on `G1`, operation 7 has kind 0,
and requesting kind 0 for its result returns it through the typed
variant. -/
theorem getDefinitionTyped_witness :
    getDefinitionF G1 3 (Value.opResult 7) = some (some 7) ∧
    getDefinitionTyped G1 3 0 (Value.opResult 7) = some (some 7) :=
  ⟨rfl, ((getDefinitionTyped_characterizes G1 3 0 (Value.opResult 7)).1 7).2
    ⟨rfl, rfl⟩⟩

/-- C3. Branch dispatch takes the first branch in list order whose pattern
structurally matches the selector, transferring control to its destination
block with its argument list, and skips non-matching branches; concretely,
with branches `[Value(5) -> Bt, Any -> Ba]` selector 5 dispatches to `Bt`,
while the reordering `[Any -> Ba, Value(5) -> Bt]` dispatches to `Ba`. -/
theorem matchDispatch_firstMatch :
    (∀ (b : MatchBranch) (rest : List MatchBranch) (sel : Term),
      patternMatches b.pattern sel = true →
        matchDispatch (b :: rest) sel = some (b.dest, b.destArgv)) ∧
    (∀ (b : MatchBranch) (rest : List MatchBranch) (sel : Term),
      patternMatches b.pattern sel = false →
        matchDispatch (b :: rest) sel = matchDispatch rest sel) ∧
    matchDispatch [⟨0, 100, [], .valueP (.intVal 5)⟩, ⟨0, 200, [], .any⟩]
      (.intVal 5) = some (100, []) ∧
    matchDispatch [⟨0, 200, [], .any⟩, ⟨0, 100, [], .valueP (.intVal 5)⟩]
      (.intVal 5) = some (200, []) := by
  refine ⟨fun b rest sel h => ?_, fun b rest sel h => ?_, rfl, rfl⟩ <;>
    simp [matchDispatch, h]

/-- Witness for C3 at a concrete input: a leading `Any` branch matches any
selector and receives control with its argument list. -/
theorem matchDispatch_witness :
    patternMatches MPattern.any (Term.atom 1) = true ∧
    matchDispatch [⟨7, 42, [9], MPattern.any⟩] (Term.atom 1) =
      some (42, [9]) :=
  ⟨rfl, matchDispatch_firstMatch.1 ⟨7, 42, [9], MPattern.any⟩ [] (Term.atom 1)
    rfl⟩

/-- Helper: a batch whose sequential application succeeds drives the
emitted control flow to the ok-block with the resulting map. -/
theorem runMapUpdate_ok (acts : List MapAction) :
    ∀ m m' : MapV, applyMapActions m acts = some m' →
      runMapUpdate m acts = .ok m' := by
  induction acts with
  | nil =>
    intro m m' h
    obtain rfl := Option.some.inj h
    rfl
  | cons a rest ih =>
    intro m m' h
    cases ha : applyMapAction m a with
    | none => simp [applyMapActions, ha] at h
    | some m1 =>
      simp only [applyMapActions, ha, Option.some_bind] at h
      simp only [runMapUpdate, ha]
      exact ih m1 m' h

/-- Helper: after a successfully applied prefix, an action whose
precondition fails in the reached map state drives the emitted control flow
to the err-block, whatever actions follow. -/
theorem runMapUpdate_err (pre : List MapAction) :
    ∀ (m m' : MapV) (a : MapAction) (post : List MapAction),
      applyMapActions m pre = some m' → applyMapAction m' a = none →
        runMapUpdate m (pre ++ a :: post) = .err := by
  induction pre with
  | nil =>
    intro m m' a post h1 h2
    obtain rfl := Option.some.inj h1
    simp [runMapUpdate, h2]
  | cons a0 rest ih =>
    intro m m' a post h1 h2
    cases ha : applyMapAction m a0 with
    | none => simp [applyMapActions, ha] at h1
    | some m1 =>
      simp only [applyMapActions, ha, Option.some_bind] at h1
      simp only [List.cons_append, runMapUpdate, ha]
      exact ih m1 m' a post h1 h2

/-- C4. The emitted control flow of a `MapUpdate` applies the actions in
sequence order and short-circuits: when the whole batch satisfies its
preconditions (sequential application succeeds), control reaches the
ok-block exactly once with the resulting map; when the action after a
successfully applied prefix is the first to violate its precondition,
control reaches the err-block exactly once, and the outcome does not depend
on the actions after it — they are never evaluated. -/
theorem mapUpdate_sequential :
    (∀ (m : MapV) (acts : List MapAction) (m' : MapV),
      applyMapActions m acts = some m' → runMapUpdate m acts = .ok m') ∧
    (∀ (m : MapV) (pre : List MapAction) (m' : MapV) (a : MapAction)
        (post post' : List MapAction),
      applyMapActions m pre = some m' → applyMapAction m' a = none →
        runMapUpdate m (pre ++ a :: post) = .err ∧
        runMapUpdate m (pre ++ a :: post') =
          runMapUpdate m (pre ++ a :: post)) := by
  refine ⟨fun m acts m' h => runMapUpdate_ok acts m m' h,
    fun m pre m' a post post' h1 h2 => ?_⟩
  have he := runMapUpdate_err pre m m' a post h1 h2
  have he' := runMapUpdate_err pre m m' a post' h1 h2
  exact ⟨he, he'.trans he.symm⟩

/-- Witness for C4 at concrete inputs: on the map `{1 ↦ 10}`, the
single-insert batch succeeds and reaches ok with the extended map, while a
batch whose second action updates the absent key 5 reaches err and its
trailing action is irrelevant. -/
theorem mapUpdate_sequential_witness :
    applyMapActions [(1, 10)] [⟨.insert, 2, 20⟩] = some [(1, 10), (2, 20)] ∧
    runMapUpdate [(1, 10)] [⟨.insert, 2, 20⟩] = .ok [(1, 10), (2, 20)] ∧
    runMapUpdate [(1, 10)]
      [⟨.insert, 2, 20⟩, ⟨.update, 5, 0⟩, ⟨.insert, 3, 3⟩] = .err :=
  ⟨rfl, mapUpdate_sequential.1 [(1, 10)] [⟨.insert, 2, 20⟩] [(1, 10), (2, 20)]
      rfl,
    (mapUpdate_sequential.2 [(1, 10)] [⟨.insert, 2, 20⟩] [(1, 10), (2, 20)]
      ⟨.update, 5, 0⟩ [⟨.insert, 3, 3⟩] [] rfl rfl).1⟩

/-- C5. The tag of a `BinarySpecifier` is the sole discriminant of which
payload may be read: the Integer payload reads back exactly on the Integer
tag and the Float payload exactly on the Float tag, any mismatched read is
the structural error `MalformedBinarySpecifier`, and the Bytes, Bits, Utf8,
Utf16 and Utf32 variants carry no numeric payload at all. -/
theorem binarySpecifier_tag_discriminates (s : BinarySpecifier) :
    ((∃ p, readIntegerPayload s = .ok p) ↔ s.tag = .integer) ∧
    ((∃ p, readFloatPayload s = .ok p) ↔ s.tag = .float) ∧
    (s.tag ≠ .integer →
      readIntegerPayload s = .error .malformedBinarySpecifier) ∧
    (s.tag ≠ .float →
      readFloatPayload s = .error .malformedBinarySpecifier) ∧
    (s.tag ≠ .integer → s.tag ≠ .float → s.numericPayload = none) := by
  cases s <;>
    simp [readIntegerPayload, readFloatPayload, BinarySpecifier.tag,
      BinarySpecifier.numericPayload]

/-- Witness for C5 at a concrete input: the Bytes variant rejects an
Integer-payload read with `MalformedBinarySpecifier` and carries no numeric
payload. -/
theorem binarySpecifier_witness :
    BinarySpecifier.bytes.tag ≠ BinarySpecifierType.integer ∧
    readIntegerPayload .bytes = .error .malformedBinarySpecifier ∧
    BinarySpecifier.numericPayload .bytes = none :=
  ⟨by decide,
    (binarySpecifier_tag_discriminates .bytes).2.2.1 (by decide),
    (binarySpecifier_tag_discriminates .bytes).2.2.2.2 (by decide) (by decide)⟩

/-- C8. A closure built with an ordered captured environment yields exactly
that environment, in order, when read back — as a whole and at every
position. -/
theorem closure_env_order (loc moduleId : Nat) (name : String)
    (arity index oldUnique : Nat) (unique env : List Nat) :
    (mkClosure loc moduleId name arity index oldUnique unique env).readEnv =
      env ∧
    (∀ i,
      (mkClosure loc moduleId name arity index oldUnique unique
        env).readEnvAt i = env.get? i) :=
  ⟨rfl, fun _ => rfl⟩

/-- C9. In the `EirType` union the tag occupies the same leading slot in
both shapes: whichever member was written, reading the tag through either
member yields the stored tag; the arity slot is present exactly when the
Tuple shape was stored, so the tag alone tells which shape may be read. -/
theorem eirType_tag_common_position (a : EirTypeAny) (t : EirTypeTuple) :
    readTagViaAny (writeAny a) = some a.tag ∧
    readTagViaTuple (writeAny a) = some a.tag ∧
    readTagViaAny (writeTuple t) = some t.tag ∧
    readTagViaTuple (writeTuple t) = some t.tag ∧
    readArityViaTuple (writeTuple t) = some t.arity ∧
    readArityViaTuple (writeAny a) = none :=
  ⟨rfl, rfl, rfl, rfl, rfl, rfl⟩

/-- C10. Every constructor of the `MatchPattern` hierarchy fixes the kind
tag `getKind` reports; each subclass's `classof` holds exactly when the
kind equals that subclass's tag; and on every pattern object exactly one of
the seven `classof` predicates holds, so the kinds are mutually exclusive
and every tag-checked downcast succeeds on exactly one subclass. -/
theorem matchPattern_kind_classof (arity key expectedType valueRef : Nat)
    (spec : BinarySpecifier) (size : Option Nat) (p : MatchPattern) :
    (MatchPattern.anyPattern.getKind = .any ∧
      MatchPattern.consPattern.getKind = .cons ∧
      (MatchPattern.tuplePattern arity).getKind = .tuple ∧
      (MatchPattern.mapPattern key).getKind = .mapItem ∧
      (MatchPattern.isTypePattern expectedType).getKind = .isType ∧
      (MatchPattern.valuePattern valueRef).getKind = .value ∧
      (MatchPattern.binaryPattern spec size).getKind = .binary) ∧
    ((classofAny p = true ↔ p.getKind = .any) ∧
      (classofCons p = true ↔ p.getKind = .cons) ∧
      (classofTuple p = true ↔ p.getKind = .tuple) ∧
      (classofMap p = true ↔ p.getKind = .mapItem) ∧
      (classofIsType p = true ↔ p.getKind = .isType) ∧
      (classofValue p = true ↔ p.getKind = .value) ∧
      (classofBinary p = true ↔ p.getKind = .binary)) ∧
    classofList.countP (fun c => c p) = 1 := by
  refine ⟨⟨rfl, rfl, rfl, rfl, rfl, rfl, rfl⟩, ?_, ?_⟩
  · simp [classofAny, classofCons, classofTuple, classofMap, classofIsType,
      classofValue, classofBinary]
  · cases p <;> rfl

end Firefly
